import Mathlib

/-!
Verification of the rainfall-download client (`src/download_rainfall.py`).

Shallow embedding conventions:
* Python strings are modelled as `List Char` (`PyStr`).
* `datetime.date` values are modelled as `Nat` (proleptic day ordinals);
  Python's date arithmetic `d + timedelta(days = n)` becomes `d + n`.
* Rainfall records are modelled as structures with the fields the code
  actually reads (an observation date and a value); the float values are
  modelled as `Int` since no claim computes with them.
* `requests.get` is modelled by response oracles passed as arguments; an
  HTTP error raised by `raise_for_status` is an explicit constructor.
* The pagination `while True:` loop is modelled with explicit fuel; the
  outcome `none` means the loop did not finish within the given fuel.
-/

namespace RainfallDownload

/-- Python strings modelled as lists of characters. -/
abbrev PyStr := List Char

/-- Embeds `_stationid_with_dataset` (download_rainfall.py:674-675):
`return station if ":" in station else f"{dataset}:{station}"`. -/
def _stationid_with_dataset (station dataset : PyStr) : PyStr :=
  if station.contains ':' then station else dataset ++ ':' :: station

/-- Embeds `station.split(":", 1)[1]`: everything after the first colon. -/
def splitColonTail : PyStr → PyStr
  | [] => []
  | c :: rest => if c = ':' then rest else splitColonTail rest

/-- Embeds the station-id preparation of `_fetch_rainfall_ads_fallback`
(download_rainfall.py:996-999): if ":" in station, keep only the part
after the first colon, else use the station unchanged. -/
def ads_raw_id (station : PyStr) : PyStr :=
  if station.contains ':' then splitColonTail station else station

/-- Embeds the chunking loop of `fetch_rainfall` (download_rainfall.py:399-408)
in terms of day ordinals: starting at `start`, each segment ends at
`min (start + chunkDays - 1) end`, and the next segment starts one day
after the previous segment's end.  The loop runs while
`current_start <= end`.  `chunkDays = 0` is excluded by the caller
(`if chunk_days:`) but the definition guards it for well-foundedness. -/
def chunkSegments (chunkDays : Nat) (start stop : Nat) : List (Nat × Nat) :=
  if h : start ≤ stop ∧ 0 < chunkDays then
    (start, min (start + chunkDays - 1) stop) ::
      chunkSegments chunkDays (min (start + chunkDays - 1) stop + 1) stop
  else []
termination_by stop + 1 - start
decreasing_by
  simp only [gt_iff_lt]
  omega

/-- Days covered by one segment, as a list of day ordinals. -/
def segSpan (p : Nat × Nat) : List Nat := List.range' p.1 (p.2 + 1 - p.1)

/-- A date-string argument: either it parses (`_coerce_date` yields a day
ordinal) or it does not.  The actual parsing of raw strings is the business
of `_normalise_iso_date`, modelled separately below. -/
inductive DateStr where
  | valid (day : Nat)
  | invalid (raw : PyStr)
deriving DecidableEq, Repr

/-- Embeds `_coerce_date` (download_rainfall.py:167-176) as the projection
of `DateStr`: it returns `None` exactly when the string does not parse,
and never raises. -/
def _coerce_date : DateStr → Option Nat
  | .valid d => some d
  | .invalid _ => none

/-- Query parameters of one CDO request, download_rainfall.py:333-341. -/
structure NoaaParams where
  datasetid : PyStr
  stationid : PyStr
  datatypeid : PyStr
  startdate : DateStr
  enddate : DateStr
  units : PyStr
  limit : Nat
deriving DecidableEq

/-- Embeds `params_local` of `_fetch_noaa_segment` (download_rainfall.py:331-341):
the station id is dataset-qualified when no ":" is present. -/
def noaa_segment_params (station dataset datatype units : PyStr)
    (seg_start seg_end : DateStr) : NoaaParams :=
  { datasetid := dataset
    stationid := if station.contains ':' then station else dataset ++ ':' :: station
    datatypeid := datatype
    startdate := seg_start
    enddate := seg_end
    units := if units = "mm".toList then "metric".toList else "standard".toList
    limit := 1000 }

/-- Query parameters of one ADS request, download_rainfall.py:1003-1012. -/
structure AdsParams where
  dataset : PyStr
  stations : PyStr
  startDate : DateStr
  endDate : DateStr
  units : PyStr
  format : PyStr
  dataTypes : Option PyStr
deriving DecidableEq

/-- Embeds the parameter construction of `_fetch_rainfall_ads_fallback`
(download_rainfall.py:994-1012): any dataset qualifier up to the first ":"
is stripped and the raw id is sent as `stations`. -/
def ads_fallback_params (station : PyStr) (start stop : DateStr)
    (datatype : Option PyStr) (units : PyStr) : AdsParams :=
  { dataset := "daily-summaries".toList
    stations := ads_raw_id station
    startDate := start
    endDate := stop
    units := if units = "mm".toList then "metric".toList else "standard".toList
    format := "json".toList
    dataTypes := datatype }

/-- Embeds Python `str.strip()`: drop whitespace from both ends. -/
def pyStrip (s : PyStr) : PyStr :=
  ((s.dropWhile Char.isWhitespace).reverse.dropWhile Char.isWhitespace).reverse

/-- Embeds the regex `^(\d{4}-\d{2}-\d{2})` (download_rainfall.py:135):
true when the string starts with four digits, a dash, two digits, a dash
and two digits; the captured group is then the first ten characters. -/
def isoDateStart : PyStr → Bool
  | y1 :: y2 :: y3 :: y4 :: h1 :: m1 :: m2 :: h2 :: d1 :: d2 :: _ =>
      y1.isDigit && y2.isDigit && y3.isDigit && y4.isDigit && h1 = '-' &&
        m1.isDigit && m2.isDigit && h2 = '-' && d1.isDigit && d2.isDigit
  | _ => false

/-- Embeds `text.replace("Z", "+00:00")`: every occurrence of `Z` is
replaced (Python `str.replace` substitutes all occurrences). -/
def replaceZ : PyStr → PyStr
  | [] => []
  | c :: rest =>
      if c = 'Z' then '+' :: '0' :: '0' :: ':' :: '0' :: '0' :: replaceZ rest
      else c :: replaceZ rest

/-- A parsed `datetime.date` value (only the calendar fields the code
reads via `.date().isoformat()`). -/
structure PyDate where
  year : Nat
  month : Nat
  day : Nat
deriving DecidableEq, Repr

/-- Decimal rendering left-padded with zeros to `width`, as Python's
zero-padded date formatting does. -/
def padDigits (width n : Nat) : PyStr :=
  let ds := Nat.toDigits 10 n
  List.replicate (width - ds.length) '0' ++ ds

/-- Embeds `date.isoformat()`: `YYYY-MM-DD`. -/
def PyDate.isoformat (d : PyDate) : PyStr :=
  padDigits 4 d.year ++ '-' :: padDigits 2 d.month ++ '-' :: padDigits 2 d.day

/-- Embeds `_normalise_iso_date` (download_rainfall.py:138-164).  The two
library parsers are oracles: `fromisoformat` models
`datetime.datetime.fromisoformat` (tried on the `Z`-substituted text) and
`strptimeTsep`/`strptimeSpaceSep` model `strptime` with the formats
`"%Y-%m-%dT%H:%M:%S"` and `"%Y-%m-%d %H:%M:%S"`, tried in that order;
`none` models the `ValueError` each raises on failure.  The input `none`
models a `None`/falsy value argument. -/
def _normalise_iso_date
    (fromisoformat strptimeTsep strptimeSpaceSep : PyStr → Option PyDate)
    (value : Option PyStr) : PyStr :=
  match value with
  | none => []
  | some v =>
      let text := pyStrip v
      if text = [] then []
      else if isoDateStart text then text.take 10
      else
        match fromisoformat (replaceZ text) with
        | some d => d.isoformat
        | none =>
          match strptimeTsep text with
          | some d => d.isoformat
          | none =>
            match strptimeSpaceSep text with
            | some d => d.isoformat
            | none => text

/-- One raw rainfall record as the APIs return it, holding the fields the
code reads (`date` and `value`).  Values are floats in Python; no claim
computes with them, so `Int` suffices. -/
structure RainRecord where
  date : Nat
  value : Int
deriving DecidableEq, Repr

/-- Response to one paginated CDO page request, as observed around
`raise_for_status`: either a 2xx payload (content-type-is-JSON flag, the
`results`/`data` list and the optional `metadata.resultset.count`), or an
`HTTPError` with the given status. -/
inductive PageResp where
  | ok (jsonContentType : Bool) (records : List RainRecord) (count : Option Nat)
  | httpError (status : Nat)

/-- Errors `fetch_rainfall` raises: `ValueError(msg)` or a re-raised
`requests.HTTPError` with the given status. -/
inductive FetchError where
  | valueError (msg : String)
  | httpError (status : Nat)
deriving DecidableEq, Repr

/-- Message of the NoDataError outcome (download_rainfall.py:432). -/
def noDataMsg : String := "No rainfall data returned"

/-- The third pagination stop condition (download_rainfall.py:381-385):
the server-reported total is known and `offset + limit > total`. -/
def pastTotal (total? : Option Nat) (offset limit : Nat) : Bool :=
  match total? with
  | some t => decide (t < offset + limit)
  | none => false

/-- Embeds the pagination `while True:` loop of `_fetch_noaa_segment`
(download_rainfall.py:346-386) with explicit fuel; `none` means the loop
did not finish within `fuel` iterations.  On HTTP 400/404 the collected
records are discarded and an empty result is returned (the no-coverage
signal); any other HTTP error is re-raised.  A non-JSON content type
raises `ValueError("Unsupported response format")`.  The page is appended
to `collected` before the three stop conditions are checked in order:
empty page, short page, past the reported total. -/
def segLoop (page : Nat → PageResp) (limit : Nat) :
    Nat → Nat → Option Nat → List RainRecord →
      Option (Except FetchError (List RainRecord))
  | 0, _, _, _ => none
  | fuel + 1, offset, total?, collected =>
    match page offset with
    | .httpError s =>
        if s = 400 ∨ s = 404 then some (.ok [])
        else some (.error (.httpError s))
    | .ok jsonCT records count =>
        if jsonCT then
          let total' := match count with | some c => some c | none => total?
          let collected' := collected ++ records
          if records = [] then some (.ok collected')
          else if records.length < limit then some (.ok collected')
          else if pastTotal total' offset limit then some (.ok collected')
          else segLoop page limit fuel (offset + limit) total' collected'
        else some (.error (.valueError "Unsupported response format"))

/-- Embeds `_fetch_noaa_segment` (download_rainfall.py:322-387): the page
oracle stands for `requests.get` with the parameters built by
`noaa_segment_params`; pagination starts at 1-based offset 1 with page
size 1000 and no total known yet. -/
def _fetch_noaa_segment (page : DateStr → DateStr → Nat → PageResp) (fuel : Nat)
    (seg_start seg_end : DateStr) : Option (Except FetchError (List RainRecord)) :=
  segLoop (page seg_start seg_end) 1000 fuel 1 none []

/-- Outcome of one `_fetch_rainfall_ads_fallback` call: either it raised
some exception, or it returned a frame with these rows (empty meaning no
data). -/
inductive FallbackOutcome where
  | raises
  | frame (records : List RainRecord)

/-- One row of the canonical output: exactly the two columns `Datetime`
and `Rainfall` selected at download_rainfall.py:470. -/
structure OutRow where
  Datetime : Nat
  Rainfall : Int
deriving DecidableEq, Repr

/-- Ordering by timestamp used by `sort_values("Datetime")`. -/
def byDatetime (a b : OutRow) : Prop := a.Datetime ≤ b.Datetime

instance : DecidableRel byDatetime := fun _ _ => Nat.decLe _ _

instance : IsTotal OutRow byDatetime := ⟨fun _ _ => Nat.le_total _ _⟩

instance : IsTrans OutRow byDatetime := ⟨fun _ _ _ => Nat.le_trans⟩

/-- Embeds the final column selection and sort (download_rainfall.py:457-471,
and 426-427 for the fallback return): keep the `Datetime`/`Rainfall`
columns and sort ascending by `Datetime`. -/
def toOutput (l : List RainRecord) : List OutRow :=
  List.insertionSort byDatetime (l.map fun r => ⟨r.date, r.value⟩)

/-- Response of the generic (non-NOAA) service, download_rainfall.py:442-455:
a JSON payload with a `results`/`data` list, CSV text parsed into records,
an unsupported content type, or an HTTP error from `raise_for_status`. -/
inductive ServiceResp where
  | json (records : List RainRecord)
  | csv (records : List RainRecord)
  | unsupported
  | httpError (status : Nat)

/-- The external calls `fetch_rainfall` issued, in order: primary segment
fetches with their (start, end) arguments, and ADS fallback invocations
with theirs. -/
structure Trace where
  segmentCalls : List (DateStr × DateStr)
  fallbackCalls : List (DateStr × DateStr)
deriving DecidableEq, Repr

/-- Embeds the chunked-segment loop (download_rainfall.py:401-408): fetch
each segment in order, append non-empty frames, and let a raised error
propagate, aborting the remaining segments.  Also returns the segment
calls issued. -/
def runSegments
    (fetchSeg : DateStr → DateStr → Option (Except FetchError (List RainRecord))) :
    List (Nat × Nat) →
      Option (Except FetchError (List (List RainRecord)) × List (DateStr × DateStr))
  | [] => some (.ok [], [])
  | (a, b) :: rest =>
    match fetchSeg (.valid a) (.valid b) with
    | none => none
    | some (.error e) => some (.error e, [(.valid a, .valid b)])
    | some (.ok recs) =>
      match runSegments fetchSeg rest with
      | none => none
      | some (.error e, calls) => some (.error e, (.valid a, .valid b) :: calls)
      | some (.ok frames, calls) =>
          some (.ok (if recs = [] then frames else recs :: frames),
            (.valid a, .valid b) :: calls)

/-- Environment of one `fetch_rainfall` call: the network collaborators
as response oracles. -/
structure FetchEnv where
  page : DateStr → DateStr → Nat → PageResp
  fallback : DateStr → DateStr → FallbackOutcome
  generic : ServiceResp

/-- Embeds `fetch_rainfall` (download_rainfall.py:234-471).  `urlIsNoaa`
models `url == NOAA_URL`; `hasDatasetAndDatatype` models
`dataset is not None and datatype is not None`; `chunk_days` of `none`
or `some 0` is falsy for `if chunk_days:`.  In the chunked branch the
dates are coerced (`_coerce_date` never raises, so the try/except at
download_rainfall.py:392-397 is equivalent to a direct call) and the
chunk loop runs only when both parse and `start <= end`; otherwise no
primary request is issued at all.  When the combined primary result is
empty the ADS fallback runs once over the original `(start, stop)`; a
non-empty fallback frame is returned sorted, and a raising or empty
fallback yields `ValueError(noDataMsg)`.  The result pairs the series
(or raised error) with the trace of issued calls; `none` models a
pagination loop that did not finish within `fuel`.  The primary phase
embeds download_rainfall.py:389-412: the chunked or single-shot CDO
requests that populate `all_frames`, paired with the segment calls
issued. -/
def primaryPhase (env : FetchEnv) (fuel : Nat)
    (start stop : DateStr) (chunk_days : Option Nat) :
    Option (Except FetchError (List (List RainRecord)) × List (DateStr × DateStr)) :=
  if chunk_days.getD 0 ≠ 0 then
    match _coerce_date start, _coerce_date stop with
    | some s, some e =>
      if s ≤ e then
        runSegments (_fetch_noaa_segment env.page fuel)
          (chunkSegments (chunk_days.getD 0) s e)
      else some (.ok [], [])
    | _, _ => some (.ok [], [])
  else
    match _fetch_noaa_segment env.page fuel start stop with
    | none => none
    | some (.error e) => some (.error e, [(start, stop)])
    | some (.ok recs) =>
        some (.ok (if recs = [] then [] else [recs]), [(start, stop)])

def fetch_rainfall (env : FetchEnv) (fuel : Nat)
    (urlIsNoaa hasDatasetAndDatatype : Bool)
    (start stop : DateStr) (chunk_days : Option Nat) :
    Option (Except FetchError (List OutRow) × Trace) :=
  if urlIsNoaa then
    if hasDatasetAndDatatype then
      match primaryPhase env fuel start stop chunk_days with
      | none => none
      | some (.error e, calls) => some (.error e, ⟨calls, []⟩)
      | some (.ok frames, calls) =>
        if frames = [] then
          match env.fallback start stop with
          | .frame l =>
              if l = [] then
                some (.error (.valueError noDataMsg), ⟨calls, [(start, stop)]⟩)
              else some (.ok (toOutput l), ⟨calls, [(start, stop)]⟩)
          | .raises => some (.error (.valueError noDataMsg), ⟨calls, [(start, stop)]⟩)
        else some (.ok (toOutput frames.flatten), ⟨calls, []⟩)
    else
      some (.error (.valueError "dataset and datatype must be provided for NOAA requests"),
        ⟨[], []⟩)
  else
    match env.generic with
    | .httpError s => some (.error (.httpError s), ⟨[], []⟩)
    | .json records =>
        if records = [] then some (.error (.valueError noDataMsg), ⟨[], []⟩)
        else some (.ok (toOutput records), ⟨[], []⟩)
    | .csv records => some (.ok (toOutput records), ⟨[], []⟩)
    | .unsupported => some (.error (.valueError "Unsupported response format"), ⟨[], []⟩)

/-- A primary server holding exactly `total` records and reporting that
total consistently in every page's `metadata.resultset.count`: the page
at 1-based `offset` returns `min 1000 (total + 1 - offset)` records. -/
def consistentServer (total : Nat) : Nat → PageResp := fun offset =>
  .ok true ((List.range' offset (min 1000 (total + 1 - offset))).map fun d => ⟨d, 0⟩)
    (some total)

/-- A raised `requests` exception as the caller observes it. -/
inductive RequestsError where
  | requestException
deriving DecidableEq, Repr

/-- Result of a `requests.get` followed by `raise_for_status` on a
metadata endpoint: the parsed `results` list, or a raised exception
(connection error, timeout, or non-2xx HTTP status). -/
inductive MetaResp (α : Type) where
  | ok (results : List α)
  | raises

/-- A metadata record with the fields the metadata readers use. -/
structure MetaRec where
  id : PyStr
  name : PyStr
  mindate : PyStr
  maxdate : PyStr
deriving DecidableEq

def lowerStr (s : PyStr) : PyStr := s.map Char.toLower

/-- Substring test modelling
`Series.str.contains(query, case=False, regex=False)` after lowering. -/
def containsSub (hay needle : PyStr) : Bool :=
  (List.range (hay.length + 1)).any fun i => needle.isPrefixOf (hay.drop i)

/-- Embeds `search_stations` (download_rainfall.py:474-503).  No
try/except wraps the request, so a transport failure propagates to the
caller as a raised exception.  On success rows are filtered by a
case-insensitive substring match of the query against name or id (every
record in the model has the `id`/`name` columns, so the missing-column
guard reduces to the empty check). -/
def search_stations (resp : MetaResp MetaRec) (query : PyStr) :
    Except RequestsError (List MetaRec) :=
  match resp with
  | .raises => .error .requestException
  | .ok data =>
      if data = [] then .ok []
      else .ok (data.filter fun st =>
        containsSub (lowerStr st.name) (lowerStr query)
          || containsSub (lowerStr st.id) (lowerStr query))

/-- A geocoding result entry: the latitude/longitude the code extracts.
Coordinates are floats in Python; no claim computes with them. -/
structure GeoPoint where
  lat : Int
  lon : Int
deriving DecidableEq

/-- Embeds `find_stations_by_city` (download_rainfall.py:506-582), with
the TTL cache out of scope (spec section 1).  The geocoding request is
wrapped in `try/except RequestException` and returns `[]` on failure, as
does an empty geocoder result; the subsequent station query is NOT
wrapped, so its transport failure propagates.  Station rows carry
`mindate`/`maxdate` normalised with `_normalise_iso_date` (same parser
oracles as that model). -/
def find_stations_by_city (f g h : PyStr → Option PyDate)
    (geo : MetaResp GeoPoint) (stationResp : MetaResp MetaRec) :
    Except RequestsError (List MetaRec) :=
  match geo with
  | .raises => .ok []
  | .ok [] => .ok []
  | .ok (_ :: _) =>
      match stationResp with
      | .raises => .error .requestException
      | .ok data => .ok (data.map fun st =>
          { st with
            mindate := _normalise_iso_date f g h (some st.mindate)
            maxdate := _normalise_iso_date f g h (some st.maxdate) })

/-- Embeds `available_datasets` (download_rainfall.py:585-623), cache out
of scope.  No try/except wraps the request, so transport failures
propagate. -/
def available_datasets (f g h : PyStr → Option PyDate)
    (resp : MetaResp MetaRec) :
    Except RequestsError (List MetaRec) :=
  match resp with
  | .raises => .error .requestException
  | .ok data => .ok (data.map fun d =>
      { d with
        mindate := _normalise_iso_date f g h (some d.mindate)
        maxdate := _normalise_iso_date f g h (some d.maxdate) })

theorem contains_colon_append (d s : PyStr) : (d ++ ':' :: s).contains ':' = true := by
  induction d with
  | nil => simp [List.contains]
  | cons c cs ih =>
    simp only [List.cons_append, List.contains_cons]
    rw [ih]
    simp

theorem splitColonTail_append (pre post : PyStr) (h : pre.contains ':' = false) :
    splitColonTail (pre ++ ':' :: post) = post := by
  induction pre with
  | nil => simp [splitColonTail]
  | cons c cs ih =>
    simp only [List.contains_cons, Bool.or_eq_false_iff] at h
    simp only [List.cons_append, splitColonTail]
    have hc : ¬c = ':' := by
      intro hc
      subst hc
      simp at h
    rw [if_neg hc]
    exact ih h.2

theorem chunkSegments_join (chunkDays : Nat) (hcd : 0 < chunkDays) (stop : Nat) :
    ∀ start, ((chunkSegments chunkDays start stop).map segSpan).flatten
      = List.range' start (stop + 1 - start) := by
  suffices H : ∀ n start, stop + 1 - start = n →
      ((chunkSegments chunkDays start stop).map segSpan).flatten
        = List.range' start (stop + 1 - start) by
    intro start; exact H (stop + 1 - start) start rfl
  intro n
  induction n using Nat.strong_induction_on with
  | _ n ih =>
    intro start hn
    by_cases hse : start ≤ stop
    · rw [chunkSegments, dif_pos ⟨hse, hcd⟩]
      simp only [List.map_cons, List.flatten_cons]
      set segEnd := min (start + chunkDays - 1) stop with hseg
      have hsegLB : start ≤ segEnd := by omega
      have hsegUB : segEnd ≤ stop := by omega
      by_cases hlast : segEnd = stop
      · rw [chunkSegments, dif_neg (by omega)]
        simp only [List.map_nil, List.flatten_nil, List.append_nil]
        simp [segSpan, hlast]
      · have hrec := ih (stop + 1 - (segEnd + 1)) (by omega) (segEnd + 1) rfl
        rw [hrec]
        have hspan : (segSpan (start, segEnd)) = List.range' start (segEnd + 1 - start) := rfl
        rw [hspan]
        have happ := List.range'_append start (segEnd + 1 - start) (stop + 1 - (segEnd + 1)) 1
        simp only [one_mul, Nat.mul_one] at happ
        have hstart : start + (segEnd + 1 - start) = segEnd + 1 := by omega
        rw [hstart] at happ
        rw [happ]
        congr 1
        omega
    · rw [chunkSegments, dif_neg (by omega)]
      have hz : stop + 1 - start = 0 := by omega
      simp [hz]

theorem chunkSegments_bounds (chunkDays : Nat) (hcd : 0 < chunkDays) (stop : Nat) :
    ∀ start, ∀ p ∈ chunkSegments chunkDays start stop,
      p.1 ≤ p.2 ∧ p.2 + 1 - p.1 ≤ chunkDays ∧ p.2 ≤ stop := by
  suffices H : ∀ n start, stop + 1 - start = n →
      ∀ p ∈ chunkSegments chunkDays start stop,
        p.1 ≤ p.2 ∧ p.2 + 1 - p.1 ≤ chunkDays ∧ p.2 ≤ stop by
    intro start; exact H (stop + 1 - start) start rfl
  intro n
  induction n using Nat.strong_induction_on with
  | _ n ih =>
    intro start hn
    rw [chunkSegments]
    by_cases hse : start ≤ stop
    · rw [dif_pos ⟨hse, hcd⟩]
      intro p hp
      rcases List.mem_cons.mp hp with hhead | htail
      · subst hhead; refine ⟨by omega, by omega, by omega⟩
      · set segEnd := min (start + chunkDays - 1) stop with hseg
        have hsegLB : start ≤ segEnd := by omega
        exact ih (stop + 1 - (segEnd + 1)) (by omega) (segEnd + 1) rfl p htail
    · rw [dif_neg (by omega)]
      intro p hp
      exact absurd hp (List.not_mem_nil p)

theorem chunkSegments_chain (chunkDays : Nat) (hcd : 0 < chunkDays) (stop : Nat) :
    ∀ start, (chunkSegments chunkDays start stop).Chain'
      (fun p q => q.1 = p.2 + 1) := by
  suffices H : ∀ n start, stop + 1 - start = n →
      (chunkSegments chunkDays start stop).Chain' (fun p q => q.1 = p.2 + 1) by
    intro start; exact H (stop + 1 - start) start rfl
  intro n
  induction n using Nat.strong_induction_on with
  | _ n ih =>
    intro start hn
    rw [chunkSegments]
    by_cases hse : start ≤ stop
    · rw [dif_pos ⟨hse, hcd⟩]
      set segEnd := min (start + chunkDays - 1) stop with hseg
      have hsegLB : start ≤ segEnd := by omega
      have htail := ih (stop + 1 - (segEnd + 1)) (by omega) (segEnd + 1) rfl
      refine List.chain'_cons'.mpr ⟨?_, htail⟩
      intro q hq
      rw [chunkSegments] at hq
      by_cases hse2 : segEnd + 1 ≤ stop
      · rw [dif_pos ⟨hse2, hcd⟩] at hq
        simp only [List.head?_cons, Option.mem_def, Option.some.injEq] at hq
        rw [← hq]
      · rw [dif_neg (by omega)] at hq
        simp at hq
    · rw [dif_neg (by omega)]
      exact List.chain'_nil

theorem chunkSegments_first (chunkDays : Nat) (hcd : 0 < chunkDays)
    (start stop : Nat) (hse : start ≤ stop) :
    ∃ b rest, chunkSegments chunkDays start stop = (start, b) :: rest := by
  rw [chunkSegments, dif_pos ⟨hse, hcd⟩]
  exact ⟨_, _, rfl⟩

theorem chunkSegments_last (chunkDays : Nat) (hcd : 0 < chunkDays) (stop : Nat) :
    ∀ start, start ≤ stop →
      ∀ p, (chunkSegments chunkDays start stop).getLast? = some p → p.2 = stop := by
  suffices H : ∀ n start, stop + 1 - start = n → start ≤ stop →
      ∀ p, (chunkSegments chunkDays start stop).getLast? = some p → p.2 = stop by
    intro start; exact H (stop + 1 - start) start rfl
  intro n
  induction n using Nat.strong_induction_on with
  | _ n ih =>
    intro start hn hse p hp
    rw [chunkSegments, dif_pos ⟨hse, hcd⟩] at hp
    by_cases hlast : min (start + chunkDays - 1) stop = stop
    · rw [chunkSegments, dif_neg (by omega)] at hp
      simp only [List.getLast?_singleton, Option.some.injEq] at hp
      rw [← hp]
      exact hlast
    · obtain ⟨b, rest, hcons⟩ :=
        chunkSegments_first chunkDays hcd (min (start + chunkDays - 1) stop + 1) stop (by omega)
      rw [hcons, List.getLast?_cons_cons, ← hcons] at hp
      exact ih (stop + 1 - (min (start + chunkDays - 1) stop + 1)) (by omega)
        (min (start + chunkDays - 1) stop + 1) rfl (by omega) p hp

/-- C10: dataset qualification of a station id is idempotent: the result of
`_stationid_with_dataset` always contains ":" and ids already containing
":" are returned unchanged, so applying it twice equals applying it once. -/
theorem stationid_with_dataset_idempotent (s d : PyStr) :
    _stationid_with_dataset (_stationid_with_dataset s d) d
      = _stationid_with_dataset s d := by
  by_cases h : s.contains ':' = true
  · have hm : ':' ∈ s := by simpa using h
    simp [_stationid_with_dataset, hm]
  · have hm : ':' ∉ s := by simpa using h
    simp [_stationid_with_dataset, hm]

/-- C7: for a station id without ":" the primary-API query parameters use
the dataset-qualified id `dataset:station` (for example
`GHCND:US1PAAL0001`), while the ADS fallback request always carries the
raw unqualified id, stripping any qualifier up to the first ":". -/
theorem primary_qualified_fallback_raw_station_id
    (station dataset datatype units : PyStr) (s e : DateStr) (dt : Option PyStr)
    (hnc : station.contains ':' = false) :
    (noaa_segment_params station dataset datatype units s e).stationid
        = dataset ++ ':' :: station
    ∧ (ads_fallback_params station s e dt units).stations = station
    ∧ (∀ post : PyStr,
        (ads_fallback_params (station ++ ':' :: post) s e dt units).stations = post)
    ∧ (noaa_segment_params ("US1PAAL0001".toList) ("GHCND".toList)
          datatype units s e).stationid = "GHCND:US1PAAL0001".toList := by
  have hm : ':' ∉ station := by simpa using hnc
  refine ⟨?_, ?_, ?_, ?_⟩
  · simp [noaa_segment_params, hm]
  · simp [ads_fallback_params, ads_raw_id, hm]
  · intro post
    show ads_raw_id (station ++ ':' :: post) = post
    rw [ads_raw_id, if_pos (contains_colon_append station post)]
    exact splitColonTail_append station post hnc
  · have hred : (noaa_segment_params ("US1PAAL0001".toList) ("GHCND".toList)
        datatype units s e).stationid
        = if ("US1PAAL0001".toList : PyStr).contains ':' = true then "US1PAAL0001".toList
          else "GHCND".toList ++ ':' :: "US1PAAL0001".toList := rfl
    rw [hred, if_neg (by decide)]
    decide

/-- Closed witness for C7 at the spec's own example station and dataset. -/
theorem primary_qualified_fallback_raw_station_id_witness :
    ("US1PAAL0001".toList : PyStr).contains ':' = false
    ∧ (noaa_segment_params ("US1PAAL0001".toList) ("GHCND".toList) ("PRCP".toList)
        ("in".toList) (.valid 0) (.valid 1)).stationid = "GHCND:US1PAAL0001".toList
    ∧ (ads_fallback_params ("GHCND:US1PAAL0001".toList) (.valid 0) (.valid 1)
        (some ("PRCP".toList)) ("in".toList)).stations = "US1PAAL0001".toList := by
  refine ⟨by decide, ?_, ?_⟩
  · exact (primary_qualified_fallback_raw_station_id ("US1PAAL0001".toList)
      ("GHCND".toList) ("PRCP".toList) ("in".toList) (.valid 0) (.valid 1)
      (some ("PRCP".toList)) (by decide)).1
  · have h := (primary_qualified_fallback_raw_station_id ("GHCND".toList)
      ("GHCND".toList) ("PRCP".toList) ("in".toList) (.valid 0) (.valid 1)
      (some ("PRCP".toList)) (by decide)).2.2.1 ("US1PAAL0001".toList)
    have hl : ("GHCND".toList : PyStr) ++ ':' :: "US1PAAL0001".toList
        = "GHCND:US1PAAL0001".toList := by decide
    rw [hl] at h
    exact h

theorem whitespace_not_digit {c : Char} (h : c.isWhitespace = true) :
    c.isDigit = false := by
  simp only [Char.isWhitespace] at h
  simp only [Bool.or_eq_true, decide_eq_true_eq] at h
  rcases h with ((h | h) | h) | h <;> subst h <;> decide

theorem digit_not_whitespace {c : Char} (h : c.isDigit = true) :
    c.isWhitespace = false := by
  cases hw : c.isWhitespace with
  | false => rfl
  | true => rw [whitespace_not_digit hw] at h; exact absurd h (by simp)

theorem pyStrip_of_iso10 (cs : PyStr) (hlen : cs.length = 10)
    (hiso : isoDateStart cs = true) : pyStrip cs = cs := by
  match cs, hlen with
  | [y1, y2, y3, y4, h1, m1, m2, h2, d1, d2], _ =>
    simp only [isoDateStart, Bool.and_eq_true, decide_eq_true_eq] at hiso
    obtain ⟨⟨⟨⟨⟨⟨⟨⟨⟨hy1, _⟩, _⟩, _⟩, _⟩, _⟩, _⟩, _⟩, _⟩, hd2⟩ := hiso
    have hy1w : y1.isWhitespace = false := digit_not_whitespace hy1
    have hd2w : d2.isWhitespace = false := digit_not_whitespace hd2
    simp [pyStrip, List.dropWhile, hy1w, hd2w]

/-- C6: the date normalizer first returns the leading `YYYY-MM-DD` prefix
when the stripped text starts with one; otherwise the ISO parse of the
`Z→+00:00` adjusted text; otherwise the first of the two fixed `strptime`
formats that succeeds; when everything fails it returns the stripped text
unchanged (it never raises, being a total function); and it is idempotent
on normalized `YYYY-MM-DD` output. -/
theorem normalise_iso_date_cascade
    (f g h : PyStr → Option PyDate) (v : PyStr) (hne : pyStrip v ≠ []) :
    (isoDateStart (pyStrip v) = true →
      _normalise_iso_date f g h (some v) = (pyStrip v).take 10)
    ∧ (∀ d, isoDateStart (pyStrip v) = false → f (replaceZ (pyStrip v)) = some d →
        _normalise_iso_date f g h (some v) = d.isoformat)
    ∧ (∀ d, isoDateStart (pyStrip v) = false → f (replaceZ (pyStrip v)) = none →
        g (pyStrip v) = some d →
        _normalise_iso_date f g h (some v) = d.isoformat)
    ∧ (∀ d, isoDateStart (pyStrip v) = false → f (replaceZ (pyStrip v)) = none →
        g (pyStrip v) = none → h (pyStrip v) = some d →
        _normalise_iso_date f g h (some v) = d.isoformat)
    ∧ (isoDateStart (pyStrip v) = false → f (replaceZ (pyStrip v)) = none →
        g (pyStrip v) = none → h (pyStrip v) = none →
        _normalise_iso_date f g h (some v) = pyStrip v)
    ∧ (v.length = 10 → isoDateStart v = true →
        _normalise_iso_date f g h (some v) = v) := by
  refine ⟨?_, ?_, ?_, ?_, ?_, ?_⟩
  · intro hiso
    rw [_normalise_iso_date]
    simp only [if_neg hne, hiso, if_true]
  · intro d hiso hf
    rw [_normalise_iso_date]
    simp only [if_neg hne, hiso, Bool.false_eq_true, if_false, hf]
  · intro d hiso hf hg
    rw [_normalise_iso_date]
    simp only [if_neg hne, hiso, Bool.false_eq_true, if_false, hf, hg]
  · intro d hiso hf hg hh
    rw [_normalise_iso_date]
    simp only [if_neg hne, hiso, Bool.false_eq_true, if_false, hf, hg, hh]
  · intro hiso hf hg hh
    rw [_normalise_iso_date]
    simp only [if_neg hne, hiso, Bool.false_eq_true, if_false, hf, hg, hh]
  · intro hlen hiso
    have hstrip : pyStrip v = v := pyStrip_of_iso10 v hlen hiso
    have hvne : v ≠ [] := by rw [hstrip] at hne; exact hne
    rw [_normalise_iso_date]
    simp only [hstrip, if_neg hvne, hiso, if_true]
    rw [← hlen]
    exact List.take_length v

/-- Closed witness for C6: a timestamp string is truncated to its date
prefix, an unrecognised string passes through unchanged, and a
`YYYY-MM-DD` string is a fixed point (with parser oracles that always
fail, as they do on these inputs). -/
theorem normalise_iso_date_cascade_witness :
    pyStrip ("2020-01-02T03:04:05".toList) ≠ []
    ∧ _normalise_iso_date (fun _ => none) (fun _ => none) (fun _ => none)
        (some ("2020-01-02T03:04:05".toList)) = "2020-01-02".toList
    ∧ _normalise_iso_date (fun _ => none) (fun _ => none) (fun _ => none)
        (some ("garbage".toList)) = "garbage".toList
    ∧ _normalise_iso_date (fun _ => none) (fun _ => none) (fun _ => none)
        (some ("2020-01-02".toList)) = "2020-01-02".toList := by
  refine ⟨by decide, ?_, ?_, ?_⟩
  · have h := (normalise_iso_date_cascade (fun _ => none) (fun _ => none) (fun _ => none)
      ("2020-01-02T03:04:05".toList) (by decide)).1 (by decide)
    rw [h]
    decide
  · have h := (normalise_iso_date_cascade (fun _ => none) (fun _ => none) (fun _ => none)
      ("garbage".toList) (by decide)).2.2.2.2.1 (by decide) rfl rfl rfl
    rw [h]
    decide
  · exact (normalise_iso_date_cascade (fun _ => none) (fun _ => none) (fun _ => none)
      ("2020-01-02".toList) (by decide)).2.2.2.2.2 (by decide) (by decide)

theorem toOutput_sorted (l : List RainRecord) :
    (toOutput l).Sorted byDatetime :=
  List.sorted_insertionSort byDatetime _

theorem toOutput_length (l : List RainRecord) :
    (toOutput l).length = l.length := by
  rw [toOutput, List.length_insertionSort, List.length_map]

theorem runSegments_all_empty
    (fetchSeg : DateStr → DateStr → Option (Except FetchError (List RainRecord)))
    (hseg : ∀ a b, fetchSeg a b = some (.ok [])) :
    ∀ segs, runSegments fetchSeg segs
      = some (.ok [], segs.map fun p => (.valid p.1, .valid p.2)) := by
  intro segs
  induction segs with
  | nil => rfl
  | cons p rest ih =>
    obtain ⟨a, b⟩ := p
    rw [runSegments, hseg, ih]
    simp

theorem primaryPhase_all_empty (env : FetchEnv) (fuel : Nat)
    (start stop : DateStr) (cd : Option Nat)
    (hseg : ∀ s e, _fetch_noaa_segment env.page fuel s e = some (.ok [])) :
    ∃ calls, primaryPhase env fuel start stop cd = some (.ok [], calls) := by
  rw [primaryPhase]
  by_cases hcd : cd.getD 0 ≠ 0
  · rw [if_pos hcd]
    rcases hs : _coerce_date start with _ | s
    · exact ⟨[], by simp [hs]⟩
    · rcases he : _coerce_date stop with _ | e
      · exact ⟨[], by simp [hs, he]⟩
      · simp only [hs, he]
        by_cases hse : s ≤ e
        · rw [if_pos hse, runSegments_all_empty _ (hseg) _]
          exact ⟨_, rfl⟩
        · rw [if_neg hse]
          exact ⟨[], rfl⟩
  · rw [if_neg hcd, hseg]
    exact ⟨[(start, stop)], by simp⟩

theorem empty_primary_fallback_spec (env : FetchEnv) (fuel : Nat)
    (start stop : DateStr) (cd : Option Nat)
    (hseg : ∀ s e, _fetch_noaa_segment env.page fuel s e = some (.ok [])) :
    ∃ calls r,
      fetch_rainfall env fuel true true start stop cd
          = some (r, ⟨calls, [(start, stop)]⟩)
      ∧ (∀ l, env.fallback start stop = .frame l → l ≠ [] →
          r = .ok (toOutput l) ∧ (toOutput l).Sorted byDatetime)
      ∧ (env.fallback start stop = .frame [] → r = .error (.valueError noDataMsg))
      ∧ (env.fallback start stop = .raises → r = .error (.valueError noDataMsg)) := by
  obtain ⟨calls, hp⟩ := primaryPhase_all_empty env fuel start stop cd hseg
  rcases hfb : env.fallback start stop with _ | l
  · refine ⟨calls, .error (.valueError noDataMsg), ?_, ?_, ?_, ?_⟩
    · simp [fetch_rainfall, hp, hfb]
    · intro l hl _
      exact absurd hl (by simp)
    · intro hl
      rfl
    · intro _
      rfl
  · by_cases hl : l = []
    · subst hl
      refine ⟨calls, .error (.valueError noDataMsg), ?_, ?_, ?_, ?_⟩
      · simp [fetch_rainfall, hp, hfb]
      · intro l' hl' hne
        injection hl' with hinj
        exact absurd hinj.symm hne
      · intro _
        rfl
      · intro hc
        exact absurd hc (by simp)
    · refine ⟨calls, .ok (toOutput l), ?_, ?_, ?_, ?_⟩
      · simp [fetch_rainfall, hp, hfb, hl]
      · intro l' hl' _
        injection hl' with hinj
        subst hinj
        exact ⟨rfl, toOutput_sorted _⟩
      · intro hc
        injection hc with hinj
        exact absurd hinj hl
      · intro hc
        exact absurd hc (by simp)

/-- C1: in NOAA mode, when every primary-API segment yields zero records,
the ADS fallback is invoked exactly once, over the original full
`(start, stop)` range (the fallback-call trace is exactly
`[(start, stop)]`, whatever the chunking); a non-empty fallback frame is
returned sorted; a raising fallback or an empty fallback frame makes
`fetch_rainfall` fail with `ValueError("No rainfall data returned")`,
never surfacing the fallback exception. -/
theorem empty_primary_invokes_fallback_once (env : FetchEnv) (fuel : Nat)
    (start stop : DateStr) (cd : Option Nat)
    (hseg : ∀ s e, _fetch_noaa_segment env.page fuel s e = some (.ok [])) :
    ∃ calls r,
      fetch_rainfall env fuel true true start stop cd
          = some (r, ⟨calls, [(start, stop)]⟩)
      ∧ (∀ l, env.fallback start stop = .frame l → l ≠ [] →
          r = .ok (toOutput l) ∧ (toOutput l).Sorted byDatetime)
      ∧ (env.fallback start stop = .frame [] → r = .error (.valueError noDataMsg))
      ∧ (env.fallback start stop = .raises → r = .error (.valueError noDataMsg)) :=
  empty_primary_fallback_spec env fuel start stop cd hseg

/-- Closed witness for C1: primary pages are empty, the fallback returns
two records, and the call is chunked over three segments. -/
theorem empty_primary_invokes_fallback_once_witness :
    ∃ calls r,
      fetch_rainfall
          ⟨fun _ _ _ => .ok true [] none,
           fun _ _ => .frame [⟨2, 5⟩, ⟨1, 3⟩],
           .unsupported⟩
          1 true true (.valid 0) (.valid 10) (some 4)
        = some (r, ⟨calls, [(.valid 0, .valid 10)]⟩)
      ∧ (∀ l, (FallbackOutcome.frame [⟨2, 5⟩, ⟨1, 3⟩] : FallbackOutcome)
            = .frame l → l ≠ [] →
          r = .ok (toOutput l) ∧ (toOutput l).Sorted byDatetime)
      ∧ ((FallbackOutcome.frame [⟨2, 5⟩, ⟨1, 3⟩] : FallbackOutcome) = .frame [] →
          r = .error (.valueError noDataMsg))
      ∧ ((FallbackOutcome.frame [⟨2, 5⟩, ⟨1, 3⟩] : FallbackOutcome) = .raises →
          r = .error (.valueError noDataMsg)) :=
  empty_primary_invokes_fallback_once
    ⟨fun _ _ _ => .ok true [] none,
     fun _ _ => .frame [⟨2, 5⟩, ⟨1, 3⟩],
     .unsupported⟩
    1 (.valid 0) (.valid 10) (some 4) (fun _ _ => rfl)

/-- C2: an HTTP 400 or 404 on any page makes the segment return an empty
result (the no-coverage signal, discarding pages already collected) while
any other HTTP error is re-raised; re-raised segment errors abort the
whole fetch; and a primary-API 404 followed by a fallback frame of two
records yields a 2-point sorted series, not an error. -/
theorem http_400_404_signals_no_coverage (page : Nat → PageResp)
    (limit fuel offset : Nat) (total? : Option Nat)
    (collected : List RainRecord) (s : Nat)
    (hs : page offset = .httpError s) :
    ((s = 400 ∨ s = 404) →
        segLoop page limit (fuel + 1) offset total? collected = some (.ok []))
    ∧ (¬(s = 400 ∨ s = 404) →
        segLoop page limit (fuel + 1) offset total? collected
          = some (.error (.httpError s)))
    ∧ (∀ env : FetchEnv, ∀ start stop : DateStr, ∀ cd : Option Nat,
        ∀ r1 r2 : RainRecord,
        (∀ a b off, env.page a b off = .httpError 404) →
        env.fallback start stop = .frame [r1, r2] →
        ∃ out calls,
          fetch_rainfall env (fuel + 1) true true start stop cd
              = some (.ok out, ⟨calls, [(start, stop)]⟩)
          ∧ out.length = 2 ∧ out.Sorted byDatetime)
    ∧ (∀ env : FetchEnv, ∀ start stop : DateStr, ∀ s' : Nat,
        ¬(s' = 400 ∨ s' = 404) →
        (∀ a b off, env.page a b off = .httpError s') →
        fetch_rainfall env (fuel + 1) true true start stop none
          = some (.error (.httpError s'), ⟨[(start, stop)], []⟩)) := by
  refine ⟨?_, ?_, ?_, ?_⟩
  · intro h
    rw [segLoop, hs]
    simp [h]
  · intro h
    rw [segLoop, hs]
    simp [h]
  · intro env start stop cd r1 r2 hpage hfb
    have hseg : ∀ a b, _fetch_noaa_segment env.page (fuel + 1) a b = some (.ok []) := by
      intro a b
      rw [_fetch_noaa_segment, segLoop, hpage]
      simp
    obtain ⟨calls, r, hf, hframe, _, _⟩ :=
      empty_primary_fallback_spec env (fuel + 1) start stop cd hseg
    obtain ⟨hr, hsort⟩ := hframe [r1, r2] hfb (by simp)
    subst hr
    exact ⟨toOutput [r1, r2], calls, hf, by simp [toOutput_length], hsort⟩
  · intro env start stop s' hns hpage
    have hseg1 : _fetch_noaa_segment env.page (fuel + 1) start stop
        = some (.error (.httpError s')) := by
      rw [_fetch_noaa_segment, segLoop, hpage]
      simp [hns]
    simp [fetch_rainfall, primaryPhase, hseg1]

/-- Closed witness for C2: a 404-only primary server gives the empty
no-coverage segment, and combined with a two-record fallback the fetch
returns a 2-point sorted series. -/
theorem http_400_404_signals_no_coverage_witness :
    segLoop (fun _ => .httpError 404) 1000 1 1 none [] = some (.ok [])
    ∧ ∃ out calls,
        fetch_rainfall
            ⟨fun _ _ _ => .httpError 404,
             fun _ _ => .frame [⟨5, 7⟩, ⟨4, 2⟩],
             .unsupported⟩
            1 true true (.valid 0) (.valid 3) none
          = some (.ok out, ⟨calls, [(.valid 0, .valid 3)]⟩)
        ∧ out.length = 2 ∧ out.Sorted byDatetime :=
  ⟨(http_400_404_signals_no_coverage (fun _ => .httpError 404) 1000 0 1 none [] 404
      rfl).1 (by decide),
   (http_400_404_signals_no_coverage (fun _ => .httpError 404) 1000 0 1 none [] 404
      rfl).2.2.1
     ⟨fun _ _ _ => .httpError 404, fun _ _ => .frame [⟨5, 7⟩, ⟨4, 2⟩], .unsupported⟩
     (.valid 0) (.valid 3) none ⟨5, 7⟩ ⟨4, 2⟩ (fun _ _ _ => rfl) rfl⟩

/-- C3: for `start <= end` and positive `chunk_days`, the chunk loop's
segments partition the day range `[start, end]` exactly: their spans
concatenate to the full range (no gaps, no overlaps), each segment spans
at most `chunk_days` calendar days, consecutive segments satisfy
`next.start = previous.end + 1`, the first segment starts at `start` and
the last ends at `end`. -/
theorem chunking_partitions_range (chunkDays start stop : Nat)
    (hcd : 0 < chunkDays) (hse : start ≤ stop) :
    ((chunkSegments chunkDays start stop).map segSpan).flatten
        = List.range' start (stop + 1 - start)
    ∧ (∀ p ∈ chunkSegments chunkDays start stop,
        p.1 ≤ p.2 ∧ p.2 + 1 - p.1 ≤ chunkDays)
    ∧ (chunkSegments chunkDays start stop).Chain' (fun p q => q.1 = p.2 + 1)
    ∧ (∃ b rest, chunkSegments chunkDays start stop = (start, b) :: rest)
    ∧ (∀ p, (chunkSegments chunkDays start stop).getLast? = some p → p.2 = stop) :=
  ⟨chunkSegments_join chunkDays hcd stop start,
   fun p hp => ⟨(chunkSegments_bounds chunkDays hcd stop start p hp).1,
     (chunkSegments_bounds chunkDays hcd stop start p hp).2.1⟩,
   chunkSegments_chain chunkDays hcd stop start,
   chunkSegments_first chunkDays hcd start stop hse,
   chunkSegments_last chunkDays hcd stop start hse⟩

/-- Closed witness for C3 at `chunk_days = 4`, range `[0, 9]`. -/
theorem chunking_partitions_range_witness :
    (0 : Nat) < 4 ∧ (0 : Nat) ≤ 9
    ∧ ((chunkSegments 4 0 9).map segSpan).flatten = List.range' 0 (9 + 1 - 0) :=
  ⟨by decide, by decide, (chunking_partitions_range 4 0 9 (by decide) (by decide)).1⟩

/-- C4 counterexample: with `chunk_days = 1` and an unparseable start
date, `fetch_rainfall` does NOT issue a single primary request over the
whole range — it issues no primary request at all (the segment-call trace
is empty) and proceeds straight to the fallback, even though the page
oracle would have returned a record. -/
theorem chunking_silent_failure_counterexample :
    fetch_rainfall
        ⟨fun _ _ _ => .ok true [⟨1, 1⟩] none,
         fun _ _ => .frame [],
         .unsupported⟩
        1 true true (.invalid ['x']) (.valid 5) (some 1)
      = some (.error (.valueError noDataMsg),
          ⟨[], [(.invalid ['x'], .valid 5)]⟩) := rfl

/-- C4 (amended): when `chunk_days` is absent or zero, chunking fails
silently and the fetch issues a single primary request over the whole
`[start, stop]` range; but when `chunk_days` is nonzero and either date
fails to parse, the fetch skips the primary request entirely (zero
segment calls) and proceeds directly to the fallback over the full
range. -/
theorem chunking_silent_failure (env : FetchEnv) (fuel : Nat)
    (start stop : DateStr) :
    (∀ cd : Option Nat, ∀ r, (cd = none ∨ cd = some 0) →
        _fetch_noaa_segment env.page fuel start stop = some r →
        ∃ res tr, fetch_rainfall env fuel true true start stop cd = some (res, tr)
          ∧ tr.segmentCalls = [(start, stop)])
    ∧ (∀ n : Nat, n ≠ 0 →
        (_coerce_date start = none ∨ _coerce_date stop = none) →
        ∃ res, fetch_rainfall env fuel true true start stop (some n)
          = some (res, ⟨[], [(start, stop)]⟩)) := by
  constructor
  · intro cd r hcd hsegr
    have hfalsy : ¬ cd.getD 0 ≠ 0 := by
      rcases hcd with h | h <;> subst h <;> simp
    rcases r with e | recs
    · have hpp : primaryPhase env fuel start stop cd = some (.error e, [(start, stop)]) := by
        rw [primaryPhase, if_neg hfalsy, hsegr]
      exact ⟨.error e, ⟨[(start, stop)], []⟩, by simp [fetch_rainfall, hpp], rfl⟩
    · by_cases hrec : recs = []
      · subst hrec
        have hpp : primaryPhase env fuel start stop cd
            = some (.ok [], [(start, stop)]) := by
          rw [primaryPhase, if_neg hfalsy, hsegr]
          simp
        rcases hfb : env.fallback start stop with _ | l
        · exact ⟨.error (.valueError noDataMsg), ⟨[(start, stop)], [(start, stop)]⟩,
            by simp [fetch_rainfall, hpp, hfb], rfl⟩
        · by_cases hl : l = []
          · subst hl
            exact ⟨.error (.valueError noDataMsg), ⟨[(start, stop)], [(start, stop)]⟩,
              by simp [fetch_rainfall, hpp, hfb], rfl⟩
          · exact ⟨.ok (toOutput l), ⟨[(start, stop)], [(start, stop)]⟩,
              by simp [fetch_rainfall, hpp, hfb, hl], rfl⟩
      · have hpp : primaryPhase env fuel start stop cd
            = some (.ok [recs], [(start, stop)]) := by
          rw [primaryPhase, if_neg hfalsy, hsegr]
          simp [hrec]
        exact ⟨.ok (toOutput recs), ⟨[(start, stop)], []⟩,
          by simp [fetch_rainfall, hpp], rfl⟩
  · intro n hn hbad
    have hne : (some n : Option Nat).getD 0 ≠ 0 := by simpa using hn
    have hpp : primaryPhase env fuel start stop (some n) = some (.ok [], []) := by
      rw [primaryPhase, if_pos hne]
      rcases hbad with h | h
      · rw [h]
      · rw [h]
        rcases hs2 : _coerce_date start with _ | s2 <;> rfl
    rcases hfb : env.fallback start stop with _ | l
    · exact ⟨.error (.valueError noDataMsg), by simp [fetch_rainfall, hpp, hfb]⟩
    · by_cases hl : l = []
      · subst hl
        exact ⟨.error (.valueError noDataMsg), by simp [fetch_rainfall, hpp, hfb]⟩
      · exact ⟨.ok (toOutput l), by simp [fetch_rainfall, hpp, hfb, hl]⟩

/-- Closed witness for C4 (amended): with `chunk_days` absent the single
primary request covers the whole range, and with `chunk_days = 1` and an
unparseable start the primary request is skipped. -/
theorem chunking_silent_failure_witness :
    (∃ res tr,
        fetch_rainfall
            ⟨fun _ _ _ => .ok true [⟨3, 1⟩] none, fun _ _ => .raises, .unsupported⟩
            1 true true (.valid 0) (.valid 5) none
          = some (res, tr)
        ∧ tr.segmentCalls = [(.valid 0, .valid 5)])
    ∧ (∃ res,
        fetch_rainfall
            ⟨fun _ _ _ => .ok true [⟨3, 1⟩] none, fun _ _ => .raises, .unsupported⟩
            1 true true (.invalid ['x']) (.valid 5) (some 1)
          = some (res, ⟨[], [(.invalid ['x'], .valid 5)]⟩)) :=
  ⟨(chunking_silent_failure
      ⟨fun _ _ _ => .ok true [⟨3, 1⟩] none, fun _ _ => .raises, .unsupported⟩
      1 (.valid 0) (.valid 5)).1 none (.ok [⟨3, 1⟩]) (Or.inl rfl) rfl,
   (chunking_silent_failure
      ⟨fun _ _ _ => .ok true [⟨3, 1⟩] none, fun _ _ => .raises, .unsupported⟩
      1 (.invalid ['x']) (.valid 5)).2 1 (by decide) (Or.inl rfl)⟩

theorem segLoop_consistent_terminates (total : Nat) :
    ∀ fuel offset total? collected, 1 ≤ offset →
      (if offset ≤ total then (total + 1000 - offset) / 1000 else 1) ≤ fuel →
      (segLoop (consistentServer total) 1000 fuel offset total? collected).isSome
        = true := by
  intro fuel
  induction fuel with
  | zero =>
    intro offset total? collected hoff hfuel
    exfalso
    by_cases h : offset ≤ total
    · rw [if_pos h] at hfuel
      have h1000 : 1000 ≤ total + 1000 - offset := by omega
      have hq : 1 ≤ (total + 1000 - offset) / 1000 :=
        (Nat.one_le_div_iff (by omega)).mpr h1000
      omega
    · rw [if_neg h] at hfuel
      omega
  | succ fuel ih =>
    intro offset total? collected hoff hfuel
    rw [segLoop]
    simp only [consistentServer]
    by_cases hA : total < offset
    · have hmin : min 1000 (total + 1 - offset) = 0 := by omega
      rw [hmin]
      simp
    · by_cases hB : total + 1 - offset < 1000
      · have hmin : min 1000 (total + 1 - offset) = total + 1 - offset := by omega
        rw [hmin]
        have hne : total + 1 - offset ≠ 0 := by omega
        by_cases hz : total + 1 - offset = 0
        · exact absurd hz hne
        · simp [hz, hB]
      · have hmin : min 1000 (total + 1 - offset) = 1000 := by omega
        rw [hmin]
        by_cases hC : total < offset + 1000
        · have hpast : pastTotal (some total) offset 1000 = true := by
            simp [pastTotal, hC]
          simp [hpast]
        · have hpast : pastTotal (some total) offset 1000 = false := by
            simp [pastTotal]
            omega
          have hdiv : (total + 1000 - offset) / 1000 = (total - offset) / 1000 + 1 := by
            rw [show total + 1000 - offset = (total - offset) + 1000 by omega,
              Nat.add_div_right _ (by norm_num)]
          simp only [hpast, List.map_eq_nil_iff, List.length_map, List.length_range',
            Bool.false_eq_true, if_false]
          have hfits : (if offset + 1000 ≤ total then (total + 1000 - (offset + 1000)) / 1000
              else 1) ≤ fuel := by
            rw [if_pos (by omega)]
            rw [if_pos (by omega)] at hfuel
            have heq : total + 1000 - (offset + 1000) = total - offset := by omega
            rw [heq]
            omega
          have hrec := ih (offset + 1000) (some total) (collected ++
            ((List.range' offset 1000).map fun d => ⟨d, 0⟩)) (by omega) hfits
          simpa using hrec

/-- C5: the pagination loop (1-based offset, page size 1000, offset
incremented by the page size) stops, in order, on an empty page, on a
page shorter than 1000 records, and when the known server-reported total
satisfies `offset + 1000 > total`; against a server reporting a
consistent total it completes within `ceil(total/1000) + 1` iterations of
fuel; it completes in exactly one iteration when the first page returns
fewer than 1000 records (one iteration suffices and zero iterations
never complete). -/
theorem pagination_loop_terminates (total : Nat) (page : Nat → PageResp) :
    (segLoop (consistentServer total) 1000 ((total + 999) / 1000 + 1) 1 none
        []).isSome = true
    ∧ (∀ records c, page 1 = .ok true records c → records.length < 1000 →
        (segLoop page 1000 1 1 none []).isSome = true)
    ∧ (∀ offset total? collected,
        segLoop page 1000 0 offset total? collected = none)
    ∧ (∀ fuel offset total? collected c, page offset = .ok true [] c →
        segLoop page 1000 (fuel + 1) offset total? collected
          = some (.ok collected))
    ∧ (∀ fuel offset total? collected records c,
        page offset = .ok true records c → records ≠ [] →
        records.length < 1000 →
        segLoop page 1000 (fuel + 1) offset total? collected
          = some (.ok (collected ++ records)))
    ∧ (∀ fuel offset total? collected records t,
        page offset = .ok true records (some t) → records ≠ [] →
        ¬records.length < 1000 → t < offset + 1000 →
        segLoop page 1000 (fuel + 1) offset total? collected
          = some (.ok (collected ++ records))) := by
  refine ⟨?_, ?_, ?_, ?_, ?_, ?_⟩
  · apply segLoop_consistent_terminates total _ 1 none [] (by omega)
    by_cases h : 1 ≤ total
    · rw [if_pos h]
      have heq : total + 1000 - 1 = total + 999 := by omega
      rw [heq]
      omega
    · rw [if_neg h]
      have heq : total = 0 := by omega
      subst heq
      simp
  · intro records c hp hlen
    rw [segLoop, hp]
    by_cases hr : records = []
    · simp [hr]
    · simp [hr, hlen]
  · intro offset total? collected
    rfl
  · intro fuel offset total? collected c hp
    rw [segLoop, hp]
    simp
  · intro fuel offset total? collected records c hp hne hlen
    rw [segLoop, hp]
    simp [hne, hlen]
  · intro fuel offset total? collected records t hp hne hlen hpast
    rw [segLoop, hp]
    simp [hne, hlen, pastTotal, hpast]

/-- Closed witness for C5: a first page of one record completes in a
single iteration, and the consistent 2500-record server completes within
the stated fuel bound. -/
theorem pagination_loop_terminates_witness :
    (segLoop (fun _ => .ok true [⟨1, 1⟩] none) 1000 1 1 none []).isSome = true
    ∧ (segLoop (consistentServer 2500) 1000 ((2500 + 999) / 1000 + 1) 1 none
        []).isSome = true :=
  ⟨(pagination_loop_terminates 2500 (fun _ => .ok true [⟨1, 1⟩] none)).2.1
      [⟨1, 1⟩] none rfl (by decide),
   (pagination_loop_terminates 2500 (fun _ => .ok true [⟨1, 1⟩] none)).1⟩

/-- C9: every series `fetch_rainfall` returns — primary single-shot,
chunked, fallback, or generic-service mode — is a list of rows with
exactly the two columns `Datetime` and `Rainfall` (the only fields of
`OutRow`) sorted ascending by `Datetime`. -/
theorem fetch_rainfall_output_sorted (env : FetchEnv) (fuel : Nat)
    (urlIsNoaa hasDS : Bool) (start stop : DateStr) (cd : Option Nat)
    (out : List OutRow) (tr : Trace)
    (h : fetch_rainfall env fuel urlIsNoaa hasDS start stop cd
      = some (.ok out, tr)) :
    out.Sorted byDatetime := by
  rw [fetch_rainfall] at h
  split at h
  · split at h
    · split at h
      · exact absurd h (by simp)
      · simp at h
      · split at h
        · split at h
          · split at h
            · simp at h
            · obtain ⟨h1, h2⟩ := by simpa using h
              rw [← h1]
              exact toOutput_sorted _
          · simp at h
        · obtain ⟨h1, h2⟩ := by simpa using h
          rw [← h1]
          exact toOutput_sorted _
    · simp at h
  · split at h
    · simp at h
    · split at h
      · simp at h
      · obtain ⟨h1, h2⟩ := by simpa using h
        rw [← h1]
        exact toOutput_sorted _
    · obtain ⟨h1, h2⟩ := by simpa using h
      rw [← h1]
      exact toOutput_sorted _
    · simp at h

/-- Closed witness for C9: a generic-mode fetch of two out-of-order
records comes back sorted. -/
theorem fetch_rainfall_output_sorted_witness :
    List.Sorted byDatetime [⟨1, 2⟩, ⟨2, 1⟩] :=
  fetch_rainfall_output_sorted
    ⟨fun _ _ _ => .httpError 404, fun _ _ => .raises, .json [⟨2, 1⟩, ⟨1, 2⟩]⟩
    1 false false (.valid 0) (.valid 1) none [⟨1, 2⟩, ⟨2, 1⟩] ⟨[], []⟩ rfl

/-- C8 counterexample: on a transport failure `search_stations` and
`available_datasets` raise rather than returning an empty list, and so
does the station query inside `find_stations_by_city` once geocoding has
succeeded — refuting the claim that every station-metadata read
operation swallows transport errors into an empty result. -/
theorem metadata_swallow_errors_counterexample :
    search_stations .raises ("rain".toList) = .error .requestException
    ∧ available_datasets (fun _ => none) (fun _ => none) (fun _ => none) .raises
        = .error .requestException
    ∧ find_stations_by_city (fun _ => none) (fun _ => none) (fun _ => none)
        (.ok [⟨0, 0⟩]) .raises = .error .requestException :=
  ⟨rfl, rfl, rfl⟩

/-- C8 (amended): only the geocoding step of `find_stations_by_city`
swallows transport failures into an empty result (as does an empty
geocoder response); `search_stations`, `available_datasets`, and the
station query of `find_stations_by_city` propagate transport failures as
raised exceptions. -/
theorem metadata_error_handling (f g h : PyStr → Option PyDate)
    (q : PyStr) (resp : MetaResp MetaRec) (p : GeoPoint)
    (rest : List GeoPoint) :
    find_stations_by_city f g h .raises resp = .ok []
    ∧ find_stations_by_city f g h (.ok []) resp = .ok []
    ∧ find_stations_by_city f g h (.ok (p :: rest)) .raises
        = .error .requestException
    ∧ search_stations .raises q = .error .requestException
    ∧ available_datasets f g h .raises = .error .requestException :=
  ⟨rfl, rfl, rfl, rfl, rfl⟩

end RainfallDownload
